import Mathlib

/-!
Verification of the message-state lifecycle of the Stage class in
src/src/Stage.tsx. The class keeps an untyped key-value working state,
myInternalState; the constructor seeds it from a host-restored prior
message state or a hardcoded default and assigns two counters onto it;
setState merges a non-null incoming state over it with a shallow object
spread; the load, beforePrompt and afterResponse hooks return fixed
records without touching the working state. JS objects are embedded as
association lists of properties in insertion order, and the aliasing
behaviour of the constructor is additionally modelled on a small heap of
objects addressed by position.
-/

/-- Runtime values a stage state object stores: the JS primitives the
code actually uses, with vUndef embedding the undefined value an absent
property reads as. -/
inductive Val where
  | vStr : String → Val
  | vNum : Nat → Val
  | vBool : Bool → Val
  | vNull : Val
  | vUndef : Val
  deriving DecidableEq

/-- A JS object embedded as an association list of properties in
insertion order. The representation invariant of JS objects, no
duplicate keys, is carried as a hypothesis where a claim needs it. -/
abbrev Obj : Type := List (String × Val)

/-- Property lookup: the first entry with the given key, none for an
absent property. -/
def objGet (o : Obj) (k : String) : Option Val :=
  (o.find? (fun p => p.1 == k)).map (fun p => p.2)

/-- JS bracket indexing: an absent property reads as undefined. -/
def objIdx (o : Obj) (k : String) : Val :=
  (objGet o k).getD Val.vUndef

/-- Object.keys of an object. -/
def objKeys (o : Obj) : List String :=
  o.map (fun p => p.1)

/-- JS property assignment: overwrite in place when the key is present,
append the new property otherwise. -/
def objSet (o : Obj) (k : String) (v : Val) : Obj :=
  if o.any (fun p => p.1 == k) then
    o.map (fun p => if p.1 == k then (k, v) else p)
  else
    o ++ [(k, v)]

/-- Shallow spread merge of two objects, as in the object literal built
from spreading a and then b: keys of a keep their position with values
from b winning, and keys only in b are appended in b order. -/
def mergeObj (a b : Obj) : Obj :=
  (a.map (fun p => (p.1, (objGet b p.1).getD p.2))) ++
    b.filter (fun p => (objGet a p.1).isNone)

/-- The Message argument of the turn hooks, with the three fields the
hooks destructure, each possibly absent. -/
structure Message where
  content : Option String
  anonymizedId : Option String
  isBot : Option Bool
  deriving DecidableEq

/-- The response record the turn hooks return. -/
structure StageResponse where
  stageDirections : Option String
  messageState : Option Obj
  modifiedMessage : Option String
  systemMessage : Option String
  error : Option String
  chatState : Option Val
  deriving DecidableEq

/-- The record returned by the load hook. -/
structure LoadResponse where
  success : Bool
  error : Option String
  initState : Option Val
  chatState : Option Val
  deriving DecidableEq

/-- The construction payload, as the constructor destructures it;
messageState is nullable. -/
structure InitialData where
  characters : Obj
  users : Obj
  config : Option Val
  messageState : Option Obj
  environment : String
  initState : Option Val
  chatState : Option Val
  deriving DecidableEq

/-- The hardcoded default seed object of the constructor. -/
def defaultSeed : Obj := [("someKey", Val.vStr "someValue")]

/-- The ternary in the constructor: the host-restored prior message
state when non-null, else the default seed. -/
def baseState (data : InitialData) : Obj :=
  match data.messageState with
  | some ms => ms
  | none => defaultSeed

/-- The constructor: myInternalState is the non-null messageState or the
default seed, and the numUsers and numChars counters are then assigned
onto it. The length of the users and characters association lists embeds
the length of Object.keys under the no-duplicate-keys invariant. -/
def Stage.construct (data : InitialData) : Obj :=
  objSet (objSet (baseState data) "numUsers" (Val.vNum data.users.length))
    "numChars" (Val.vNum data.characters.length)

/-- The load method: unconditionally success with no error and no new
scope values, ignoring the receiver state. -/
def Stage.load (_st : Obj) : LoadResponse :=
  ⟨true, none, none, none⟩

/-- The setState method acting on the working state: merge a non-null
incoming state over the current one, keep the current one on null. -/
def Stage.setState (st : Obj) (state : Option Obj) : Obj :=
  match state with
  | some s => mergeObj st s
  | none => st

/-- The beforePrompt method as a state transformer: the receiver state
it leaves behind, together with its response. -/
def Stage.beforePrompt (st : Obj) (userMessage : Message) : Obj × StageResponse :=
  let _content := userMessage.content
  let _anonymizedId := userMessage.anonymizedId
  let _isBot := userMessage.isBot
  (st, ⟨none, some [("someKey", objIdx st "someKey")], none, none, none, none⟩)

/-- The afterResponse method as a state transformer: the receiver state
it leaves behind, together with its response. -/
def Stage.afterResponse (st : Obj) (botMessage : Message) : Obj × StageResponse :=
  let _content := botMessage.content
  let _anonymizedId := botMessage.anonymizedId
  let _isBot := botMessage.isBot
  (st, ⟨none, some [("someKey", objIdx st "someKey")], none, none, none, none⟩)

/-- One host-driven event after construction: a setState call or one of
the two turn hooks. -/
inductive Event where
  | setSt : Option Obj → Event
  | before : Message → Event
  | after : Message → Event

/-- How one event acts on the working state. -/
def stepEvent (st : Obj) (e : Event) : Obj :=
  match e with
  | Event.setSt s => Stage.setState st s
  | Event.before m => (Stage.beforePrompt st m).1
  | Event.after m => (Stage.afterResponse st m).1

/-- The working state after construction and a sequence of events. -/
def runEvents (data : InitialData) (evs : List Event) : Obj :=
  evs.foldl stepEvent (Stage.construct data)

/-- Successive shallow merges over a start object. -/
def mergeAll (init : Obj) (updates : List Obj) : Obj :=
  updates.foldl mergeObj init

/-- The non-null setState payloads of an event sequence, in order. -/
def setStateUpdates (evs : List Event) : List Obj :=
  evs.filterMap (fun e =>
    match e with
    | Event.setSt (some s) => some s
    | _ => none)

/-- The two counter singletons the constructor injects, as merge
updates. -/
def counterUpdates (data : InitialData) : List Obj :=
  [[("numUsers", Val.vNum data.users.length)],
   [("numChars", Val.vNum data.characters.length)]]

/-- The construction payload with every field possibly absent, for the
degraded-input claim; none embeds an absent or null field. -/
structure RawInitialData where
  characters : Option Obj
  users : Option Obj
  config : Option Val
  messageState : Option Obj
  environment : Option String
  initState : Option Val
  chatState : Option Val
  deriving DecidableEq

/-- Object.keys applied to a possibly absent argument, then length: a
TypeError is thrown when the argument is undefined or null. -/
def objectKeysLength : Option Obj → Except String Nat
  | none => Except.error "TypeError: cannot convert undefined or null to object"
  | some o => Except.ok o.length

/-- The constructor over the degraded payload: the resulting working
state, or the message of the exception construction throws. -/
def Stage.constructRaw (data : RawInitialData) : Except String Obj :=
  let base : Obj :=
    match data.messageState with
    | some ms => ms
    | none => defaultSeed
  match objectKeysLength data.users with
  | Except.error e => Except.error e
  | Except.ok nu =>
    match objectKeysLength data.characters with
    | Except.error e => Except.error e
    | Except.ok nc =>
      Except.ok (objSet (objSet base "numUsers" (Val.vNum nu)) "numChars" (Val.vNum nc))

/-- A construction payload whose users map is absent but whose
characters map is present. -/
def rawAbsentUsers : RawInitialData :=
  ⟨some [("c1", Val.vNull)], none, none, none, none, none, none⟩

/-- A construction payload with both id maps present and every other
field absent. -/
def rawBothPresent : RawInitialData :=
  ⟨some [("c1", Val.vNull)], some [("u1", Val.vNull)], none, none, none, none, none⟩

/-- A tiny object heap: references are list positions. -/
abbrev Heap : Type := List Obj

/-- Dereference a heap reference. -/
def heapRead (h : Heap) (r : Nat) : Obj :=
  (h[r]?).getD []

/-- JS property assignment through a reference: mutate the referenced
object in place. -/
def heapStore (h : Heap) (r : Nat) (k : String) (v : Val) : Heap :=
  h.set r (objSet (heapRead h r) k v)

/-- The constructor on the heap: the non-null host messageState is taken
by reference, as the ternary in the source aliases it without copying,
else a fresh seed object is allocated; the two counters are then
assigned through the reference. -/
def Stage.constructOnHeap (h : Heap) (users characters : Obj)
    (messageState : Option Nat) : Heap × Nat :=
  let p : Heap × Nat :=
    match messageState with
    | some r => (h, r)
    | none => (h ++ [defaultSeed], h.length)
  let h1 := heapStore p.1 p.2 "numUsers" (Val.vNum users.length)
  let h2 := heapStore h1 p.2 "numChars" (Val.vNum characters.length)
  (h2, p.2)

/-- The setState method on the heap: a non-null incoming state makes the
field point at a freshly allocated merged object; null leaves both the
heap and the reference untouched. -/
def Stage.setStateOnHeap (h : Heap) (r : Nat) (state : Option Obj) : Heap × Nat :=
  match state with
  | some s => (h ++ [mergeObj (heapRead h r) s], h.length)
  | none => (h, r)

/-- Two sample users. -/
def sampleUsers : Obj := [("u1", Val.vNull), ("u2", Val.vNull)]

/-- One sample character. -/
def sampleChars : Obj := [("c1", Val.vNull)]

/-- A sample construction payload with a null prior message state. -/
def sampleData : InitialData :=
  ⟨sampleChars, sampleUsers, none, none, "test", none, none⟩

theorem find?_filter_of_imp {α : Type} (l : List α) (pred q : α → Bool)
    (h : ∀ x, pred x = true → q x = true) :
    (l.filter q).find? pred = l.find? pred := by
  induction l with
  | nil => rfl
  | cons x xs ih =>
    by_cases hq : q x = true
    · rw [List.filter_cons_of_pos hq]
      by_cases hp : pred x = true
      · rw [List.find?_cons_of_pos _ hp, List.find?_cons_of_pos _ hp]
      · rw [List.find?_cons_of_neg _ hp, List.find?_cons_of_neg _ hp, ih]
    · have hp : ¬ pred x = true := fun hpe => hq (h x hpe)
      rw [List.filter_cons_of_neg hq, List.find?_cons_of_neg _ hp, ih]

theorem find?_filter_of_excl {α : Type} (l : List α) (pred q : α → Bool)
    (h : ∀ x, pred x = true → q x = false) :
    (l.filter q).find? pred = none := by
  induction l with
  | nil => rfl
  | cons x xs ih =>
    by_cases hq : q x = true
    · have hp : ¬ pred x = true := by
        intro hpe
        rw [h x hpe] at hq
        exact Bool.false_ne_true hq
      rw [List.filter_cons_of_pos hq, List.find?_cons_of_neg _ hp, ih]
    · rw [List.filter_cons_of_neg hq, ih]

theorem objGet_singleton (k : String) (v : Val) (y : String) :
    objGet [(k, v)] y = if k == y then some v else none := by
  unfold objGet
  cases h : (k == y) with
  | true => simp [List.find?, h]
  | false => simp [List.find?, h]

theorem objGet_map_override (a b : Obj) (k : String) :
    (a.map (fun p : String × Val => (p.1, (objGet b p.1).getD p.2))).find?
        (fun p => p.1 == k) =
      (a.find? (fun p => p.1 == k)).map
        (fun p : String × Val => (p.1, (objGet b p.1).getD p.2)) :=
  List.find?_map _ _

theorem objGet_mergeObj (a b : Obj) (k : String) :
    objGet (mergeObj a b) k = (objGet b k).or (objGet a k) := by
  have hLHS : objGet (mergeObj a b) k =
      (((a.find? (fun p => p.1 == k)).map
          (fun p : String × Val => (p.1, (objGet b p.1).getD p.2))).or
        ((b.filter (fun p => (objGet a p.1).isNone)).find?
          (fun p => p.1 == k))).map (fun p => p.2) := by
    show ((mergeObj a b).find? (fun p => p.1 == k)).map (fun p => p.2) = _
    rw [mergeObj, List.find?_append, objGet_map_override]
  rw [hLHS]
  cases ha : a.find? (fun p => p.1 == k) with
  | none =>
    have hnone : objGet a k = none := by
      show (a.find? (fun p => p.1 == k)).map (fun p => p.2) = none
      rw [ha]
      rfl
    have hq : ∀ x : String × Val, (x.1 == k) = true →
        ((objGet a x.1).isNone) = true := by
      intro x hx
      rw [eq_of_beq hx, hnone]
      rfl
    rw [find?_filter_of_imp b _ _ hq, hnone, Option.or_none]
    rfl
  | some pa =>
    have hpa : (pa.1 == k) = true := by
      have hx := List.find?_some ha
      exact hx
    have hpak : pa.1 = k := eq_of_beq hpa
    have hsome : objGet a k = some pa.2 := by
      show (a.find? (fun p => p.1 == k)).map (fun p => p.2) = some pa.2
      rw [ha]
      rfl
    have hq : ∀ x : String × Val, (x.1 == k) = true →
        ((objGet a x.1).isNone) = false := by
      intro x hx
      rw [eq_of_beq hx, hsome]
      rfl
    rw [find?_filter_of_excl b _ _ hq, hsome]
    cases hb : b.find? (fun p => p.1 == k) with
    | none =>
      have hbk : objGet b k = none := by
        show (b.find? (fun p => p.1 == k)).map (fun p => p.2) = none
        rw [hb]
        rfl
      have hbpa : objGet b pa.1 = none := by
        rw [hpak]
        exact hbk
      simp [hbk, hbpa]
    | some pb =>
      have hbk : objGet b k = some pb.2 := by
        show (b.find? (fun p => p.1 == k)).map (fun p => p.2) = some pb.2
        rw [hb]
        rfl
      have hbpa : objGet b pa.1 = some pb.2 := by
        rw [hpak]
        exact hbk
      simp [hbk, hbpa]

theorem isSome_objGet_of_mem {o : Obj} {k : String} (h : k ∈ objKeys o) :
    (objGet o k).isSome = true := by
  unfold objKeys at h
  obtain ⟨p, hp, hpk⟩ := List.mem_map.mp h
  unfold objGet
  rw [Option.isSome_map']
  rw [List.find?_isSome]
  exact ⟨p, hp, by rw [hpk]; exact beq_self_eq_true k⟩

theorem objSet_eq_mergeObj (o : Obj) (k : String) (v : Val) :
    objSet o k v = mergeObj o [(k, v)] := by
  unfold objSet mergeObj
  by_cases h : o.any (fun p => p.1 == k) = true
  · rw [if_pos h]
    have hmem : ∃ p, p ∈ o ∧ (p.1 == k) = true := by
      simpa using List.any_eq_true.mp h
    obtain ⟨p0, hp0, hp0k⟩ := hmem
    have hsome : (objGet o k).isNone = false := by
      have hs : (objGet o k).isSome = true := by
        show ((o.find? (fun p => p.1 == k)).map (fun p => p.2)).isSome = true
        rw [Option.isSome_map', List.find?_isSome]
        exact ⟨p0, hp0, hp0k⟩
      cases hg : objGet o k with
      | none =>
        rw [hg] at hs
        exact absurd hs Bool.false_ne_true
      | some w => rfl
    have hfilter : (([(k, v)] : Obj).filter
        (fun p => (objGet o p.1).isNone)) = [] := by
      rw [List.filter_cons_of_neg
        (by rw [show ((objGet o (k, v).1).isNone) = false from hsome]
            exact Bool.false_ne_true)]
      rfl
    rw [hfilter, List.append_nil]
    apply List.map_congr_left
    intro p _
    by_cases hp : (p.1 == k) = true
    · have hpk : p.1 = k := eq_of_beq hp
      rw [if_pos hp, objGet_singleton, hpk]
      simp
    · have hkp : (k == p.1) = false := by
        rw [beq_eq_false_iff_ne]
        intro he
        exact hp (by rw [he]; exact beq_self_eq_true p.1)
      rw [if_neg hp, objGet_singleton, hkp]
      simp
  · rw [if_neg h]
    have hfalse : o.any (fun p => p.1 == k) = false := by
      cases hh : o.any (fun p => p.1 == k) with
      | false => rfl
      | true => exact absurd hh h
    have hall : ∀ p ∈ o, ¬ ((p.1 == k) = true) := List.any_eq_false.mp hfalse
    have hnone : objGet o k = none := by
      unfold objGet
      rw [List.find?_eq_none.mpr hall]
      rfl
    have hfilter : (([(k, v)] : Obj).filter
        (fun p => (objGet o p.1).isNone)) = [(k, v)] := by
      rw [List.filter_cons_of_pos
        (by rw [show objGet o (k, v).1 = none from hnone]; rfl)]
      rfl
    rw [hfilter]
    have hmap : o.map (fun p : String × Val =>
        (p.1, (objGet [(k, v)] p.1).getD p.2)) = o := by
      have h1 : ∀ p ∈ o, (p.1, (objGet [(k, v)] p.1).getD p.2) = id p := by
        intro p hp
        have hkp : (k == p.1) = false := by
          rw [beq_eq_false_iff_ne]
          intro he
          exact hall p hp (by rw [he]; exact beq_self_eq_true p.1)
        rw [objGet_singleton, hkp]
        simp
      rw [List.map_congr_left h1, List.map_id]
    rw [hmap]

theorem construct_eq_mergeAll (data : InitialData) :
    Stage.construct data = mergeAll (baseState data) (counterUpdates data) := by
  unfold Stage.construct mergeAll counterUpdates
  rw [objSet_eq_mergeObj, objSet_eq_mergeObj]
  rfl

theorem foldl_stepEvent_eq (evs : List Event) (st : Obj) :
    evs.foldl stepEvent st = (setStateUpdates evs).foldl mergeObj st := by
  induction evs generalizing st with
  | nil => rfl
  | cons e evs ih =>
    cases e with
    | setSt s =>
      cases s with
      | none => exact ih st
      | some x => exact ih (mergeObj st x)
    | before m => exact ih st
    | after m => exact ih st

theorem heapRead_heapStore_self (h : Heap) (r : Nat) (k : String) (v : Val)
    (hr : r < h.length) :
    heapRead (heapStore h r k v) r = objSet (heapRead h r) k v := by
  unfold heapStore heapRead
  rw [List.getElem?_set_self hr]
  rfl

/-- Claim C1: at every point of the controller lifetime, after
construction and any sequence of setState calls and turn hooks, the
working state equals the successive shallow merges, right side winning
per key, starting from the host-restored prior message state or the
default seed, with the numUsers and numChars counters injected at
construction. -/
theorem stage_c1_state_is_merge_chain (data : InitialData) (evs : List Event) :
    runEvents data evs =
      mergeAll (baseState data) (counterUpdates data ++ setStateUpdates evs) := by
  unfold runEvents mergeAll
  rw [List.foldl_append, foldl_stepEvent_eq, construct_eq_mergeAll]
  rfl

/-- Claim C2: for every non-null state passed to setState, the working
state afterwards is the shallow merge of the previous working state
with it, incoming keys overriding existing ones per key; for a null
state the working state is retained unchanged. -/
theorem stage_c2_setState_merges_nonnull (st s : Obj) :
    Stage.setState st (some s) = mergeObj st s ∧
    (∀ k, objGet (Stage.setState st (some s)) k = (objGet s k).or (objGet st k)) ∧
    Stage.setState st none = st :=
  ⟨rfl, fun k => objGet_mergeObj st s k, rfl⟩

/-- Claim C3: two successive setState calls with non-null states s1 and
s2 yield, on every key present in s1 or s2, exactly the single shallow
merge of s1 under s2, last write winning per key. -/
theorem stage_c3_successive_setState (st s1 s2 : Obj) (k : String)
    (h : k ∈ objKeys s1 ∨ k ∈ objKeys s2) :
    objGet (Stage.setState (Stage.setState st (some s1)) (some s2)) k =
      objGet (mergeObj s1 s2) k := by
  show objGet (mergeObj (mergeObj st s1) s2) k = objGet (mergeObj s1 s2) k
  rw [objGet_mergeObj, objGet_mergeObj, objGet_mergeObj]
  cases hb : objGet s2 k with
  | some w => rfl
  | none =>
    cases h with
    | inr hk =>
      have hs := isSome_objGet_of_mem hk
      rw [hb] at hs
      exact absurd hs Bool.false_ne_true
    | inl hk =>
      have h1 := isSome_objGet_of_mem hk
      cases h1g : objGet s1 k with
      | none =>
        rw [h1g] at h1
        exact absurd h1 Bool.false_ne_true
      | some w => rfl

/-- Witness for claim C3 at concrete inputs. -/
theorem stage_c3_successive_setState_witness :
    ("a" ∈ objKeys [("a", Val.vNum 1)] ∨ "a" ∈ objKeys [("a", Val.vNum 2)]) ∧
    objGet (Stage.setState (Stage.setState ([] : Obj) (some [("a", Val.vNum 1)]))
        (some [("a", Val.vNum 2)])) "a" =
      objGet (mergeObj [("a", Val.vNum 1)] [("a", Val.vNum 2)]) "a" :=
  ⟨Or.inl (by decide), stage_c3_successive_setState ([] : Obj) [("a", Val.vNum 1)]
    [("a", Val.vNum 2)] "a" (Or.inl (by decide))⟩

/-- Claim C4: setState with null is a strict no-op, leaving the working
state the same object with the same key-value contents, both on the
value model and on the heap model of references. -/
theorem stage_c4_setState_null_noop :
    (∀ st : Obj, Stage.setState st none = st) ∧
    (∀ (h : Heap) (r : Nat), Stage.setStateOnHeap h r none = (h, r)) :=
  ⟨fun _ => rfl, fun _ _ => rfl⟩

/-- Claim C5: construction with a null prior message state yields a
working state with exactly three keys: someKey bound to someValue,
numUsers the number of keys of the users map, and numChars the number
of keys of the characters map. -/
theorem stage_c5_default_construction (data : InitialData)
    (hms : data.messageState = none)
    (hu : (objKeys data.users).Nodup)
    (hc : (objKeys data.characters).Nodup) :
    Stage.construct data =
      [("someKey", Val.vStr "someValue"),
       ("numUsers", Val.vNum (objKeys data.users).dedup.length),
       ("numChars", Val.vNum (objKeys data.characters).dedup.length)] := by
  have hu2 : (objKeys data.users).dedup.length = data.users.length := by
    rw [List.dedup_eq_self.mpr hu]
    simp [objKeys]
  have hc2 : (objKeys data.characters).dedup.length = data.characters.length := by
    rw [List.dedup_eq_self.mpr hc]
    simp [objKeys]
  rw [hu2, hc2]
  unfold Stage.construct baseState
  rw [hms]
  rfl

/-- Witness for claim C5 at a concrete payload with two users and one
character. -/
theorem stage_c5_default_construction_witness :
    (sampleData.messageState = none ∧ (objKeys sampleData.users).Nodup ∧
      (objKeys sampleData.characters).Nodup) ∧
    Stage.construct sampleData =
      [("someKey", Val.vStr "someValue"),
       ("numUsers", Val.vNum (objKeys sampleData.users).dedup.length),
       ("numChars", Val.vNum (objKeys sampleData.characters).dedup.length)] :=
  ⟨⟨rfl, by decide, by decide⟩,
    stage_c5_default_construction sampleData rfl (by decide) (by decide)⟩

/-- Claim C6: for every working state and every message, also with all
optional fields absent, beforePrompt and afterResponse return
stageDirections, modifiedMessage, systemMessage, error and chatState
all null, together with a messageState holding exactly the someKey
value of the working state and nothing else. -/
theorem stage_c6_hooks_minimal_response (st : Obj) (userMessage botMessage : Message) :
    (Stage.beforePrompt st userMessage).2 =
      ⟨none, some [("someKey", objIdx st "someKey")], none, none, none, none⟩ ∧
    (Stage.afterResponse st botMessage).2 =
      ⟨none, some [("someKey", objIdx st "someKey")], none, none, none, none⟩ :=
  ⟨rfl, rfl⟩

/-- Claim C7: for every construction input, load returns success true
with error, initState and chatState all null. -/
theorem stage_c7_load_always_succeeds (data : InitialData) :
    Stage.load (Stage.construct data) = ⟨true, none, none, none⟩ :=
  rfl

/-- Counterexample to claim C8: on a construction payload whose users
map is absent, construction throws a TypeError instead of degrading to
a default, so construction is not total over all degraded inputs. -/
theorem stage_c8_absent_users_throws :
    Stage.constructRaw rawAbsentUsers =
      Except.error "TypeError: cannot convert undefined or null to object" :=
  rfl

/-- Claim C8 as amended: construction cannot fail for any construction
input in which the users and characters maps are present; absence of
any other datum degrades to defaults rather than throwing. -/
theorem stage_c8_present_maps_total (data : RawInitialData)
    (hu : data.users ≠ none) (hc : data.characters ≠ none) :
    (Stage.constructRaw data).isOk = true := by
  obtain ⟨u, hu2⟩ := Option.ne_none_iff_exists.mp hu
  obtain ⟨c, hc2⟩ := Option.ne_none_iff_exists.mp hc
  unfold Stage.constructRaw
  rw [show data.users = some u from hu2.symm,
    show data.characters = some c from hc2.symm]
  rfl

/-- Witness for the amended claim C8 at a concrete payload with both
maps present and everything else absent. -/
theorem stage_c8_present_maps_total_witness :
    (rawBothPresent.users ≠ none ∧ rawBothPresent.characters ≠ none) ∧
    (Stage.constructRaw rawBothPresent).isOk = true :=
  ⟨⟨by decide, by decide⟩,
    stage_c8_present_maps_total rawBothPresent (by decide) (by decide)⟩

/-- Claim C9: with a non-null host messageState reference, the
constructor aliases the host object instead of copying it, allocates
nothing, and mutates the referenced object in place by assigning the
numUsers and numChars keys onto it. -/
theorem stage_c9_constructor_aliases_messageState (h : Heap)
    (users characters : Obj) (r : Nat) (hr : r < h.length) :
    (Stage.constructOnHeap h users characters (some r)).2 = r ∧
    (Stage.constructOnHeap h users characters (some r)).1.length = h.length ∧
    heapRead (Stage.constructOnHeap h users characters (some r)).1 r =
      objSet (objSet (heapRead h r) "numUsers" (Val.vNum users.length))
        "numChars" (Val.vNum characters.length) := by
  have hlen1 : (heapStore h r "numUsers" (Val.vNum users.length)).length = h.length := by
    unfold heapStore
    exact List.length_set _ _ _
  refine ⟨rfl, ?_, ?_⟩
  · show (heapStore (heapStore h r "numUsers" (Val.vNum users.length)) r
        "numChars" (Val.vNum characters.length)).length = h.length
    unfold heapStore
    rw [List.length_set, List.length_set]
  · show heapRead (heapStore (heapStore h r "numUsers" (Val.vNum users.length)) r
        "numChars" (Val.vNum characters.length)) r =
      objSet (objSet (heapRead h r) "numUsers" (Val.vNum users.length))
        "numChars" (Val.vNum characters.length)
    rw [heapRead_heapStore_self _ _ _ _ (by rw [hlen1]; exact hr),
      heapRead_heapStore_self _ _ _ _ hr]

/-- Witness for claim C9 on a one-object heap. -/
theorem stage_c9_constructor_aliases_messageState_witness :
    (0 < ([[("someKey", Val.vStr "x")]] : Heap).length) ∧
    ((Stage.constructOnHeap [[("someKey", Val.vStr "x")]] sampleUsers sampleChars (some 0)).2 = 0 ∧
     (Stage.constructOnHeap [[("someKey", Val.vStr "x")]] sampleUsers sampleChars (some 0)).1.length =
       ([[("someKey", Val.vStr "x")]] : Heap).length ∧
     heapRead (Stage.constructOnHeap [[("someKey", Val.vStr "x")]] sampleUsers sampleChars (some 0)).1 0 =
       objSet (objSet (heapRead [[("someKey", Val.vStr "x")]] 0) "numUsers"
           (Val.vNum sampleUsers.length)) "numChars" (Val.vNum sampleChars.length)) :=
  ⟨by decide,
    stage_c9_constructor_aliases_messageState [[("someKey", Val.vStr "x")]]
      sampleUsers sampleChars 0 (by decide)⟩

/-- Claim C10: beforePrompt and afterResponse leave the working state
completely unchanged, adding, removing and modifying no key. -/
theorem stage_c10_hooks_preserve_state (st : Obj) (userMessage botMessage : Message) :
    (Stage.beforePrompt st userMessage).1 = st ∧
    (Stage.afterResponse st botMessage).1 = st :=
  ⟨rfl, rfl⟩
